import Mathlib

/-!
Verification of the delivery reliability pipeline of the
granola-automation-client repository.

The definitions below are a shallow embedding of the TypeScript source:

- sendToWebhook, the retry/backoff delivery loop of
  src/webhook-client.ts (WebhookClient.sendToWebhook);
- validateTemplates, buildMeetingPayload, processMeeting and
  processUnprocessedMeetings from the same class;
- sendToOutputs from src/output-destinations.ts
  (OutputDestinationManager);
- shouldNotifyForSkipped, recordFailure and recordSuccess from
  src/state/state-manager.ts (StateManager).

External effects (HTTP fetch, the injected OrganizationDetector,
platform date parsing, the upstream document API) are modelled as
explicit oracle parameters; JavaScript truthiness of strings and
numbers is modelled by dedicated helpers so that the code shape is
preserved, including its use of the logical-or operator for
defaulting, under which the number 0 and the empty string fall back
to the default.
-/

/-- JavaScript truthiness filter for an optional string: the empty
string is falsy, so it is mapped to none. -/
def truthyStr : Option String → Option String
  | some s => if s = "" then none else some s
  | none => none

/-- JavaScript expression s or-else d for an optional string s:
returns d when s is undefined or empty. -/
def jsStrOr (o : Option String) (d : String) : String :=
  match o with
  | some s => if s = "" then d else s
  | none => d

/-- JavaScript expression n or-else d for an optional number n:
returns d when n is undefined or 0 (0 is falsy). -/
def jsOrNat (o : Option Nat) (d : Nat) : Nat :=
  match o with
  | some n => if n = 0 then d else n
  | none => d

/-- JavaScript string includes, for a non-degenerate needle: splitOn
returns more than one part exactly when the needle occurs. An empty
needle is always included. -/
def jsIncludes (s t : String) : Bool :=
  if t = "" then true else (s.splitOn t).length != 1

/-- Index 1 of the JavaScript split of an email on the at sign, used
for the company domain. -/
def emailDomain (s : String) : Option String :=
  (s.splitOn "@")[1]?

/-- Backoff strategy of the delivery engine (webhook-types.ts). -/
inductive RetryStrategy
  | linear
  | exponential
deriving DecidableEq, Repr

/-- WebhookConfig from src/webhook-types.ts: optional fields are
optional in the interface. -/
structure WebhookConfig where
  url : String
  headers : List (String × String)
  secret : Option String
  maxRetries : Option Nat
  retryStrategy : Option RetryStrategy
  retryDelay : Option Nat
  includeTranscript : Option Bool
deriving DecidableEq, Repr

/-- WebhookResult from src/webhook-types.ts. -/
structure WebhookResult where
  success : Bool
  statusCode : Option Nat
  response : Option String
  retries : Option Nat
  error : Option String
  skipped : Option Bool
  skipReason : Option String
deriving DecidableEq, Repr

/-- Result record with only the success flag set, used for the
unreachable branch where a skip carries no result object. -/
def emptyResult : WebhookResult :=
  { success := false, statusCode := none, response := none,
    retries := none, error := none, skipped := none, skipReason := none }

/-- Outcome of one HTTP attempt of the delivery loop: a response with
ok status, a response with a non-2xx status, or a thrown network
error. The fetch call is an oracle indexed by the attempt number. -/
inductive AttemptOutcome
  | ok (status : Nat) (body : String)
  | httpErr (status : Nat) (statusText : String)
  | exn (msg : String)
deriving DecidableEq, Repr

/-- Error string recorded by the loop for a failed attempt, following
the two catch branches of sendToWebhook. -/
def attemptError : AttemptOutcome → String
  | .ok _ _ => ""
  | .httpErr status statusText => "HTTP error: " ++ toString status ++ " " ++ statusText
  | .exn msg => msg

/-- Backoff delay computed at the point where the retry counter has
already been incremented to the value retries (webhook-client.ts,
retry-with-backoff block). -/
def backoffDelay (strategy : RetryStrategy) (base : Nat) (retries : Nat) : Nat :=
  match strategy with
  | .exponential => base * 2 ^ (retries - 1)
  | .linear => base * retries

/-- Body of the while loop of sendToWebhook. The fuel argument equals
maxR + 1 - retries on every reachable call, so the loop runs at most
maxR + 1 attempts. Returns the delivery result, the list of awaited
backoff delays in order, and the number of HTTP attempts made. -/
def sendLoop (attempt : Nat → AttemptOutcome) (strategy : RetryStrategy)
    (base maxR : Nat) (lastErr : Option String) (retries : Nat) :
    Nat → WebhookResult × List Nat × Nat
  | 0 =>
    ({ success := false, statusCode := none, response := none,
       retries := some retries, error := lastErr, skipped := none, skipReason := none },
     [], 0)
  | fuel + 1 =>
    match attempt retries with
    | .ok status body =>
      ({ success := true, statusCode := some status, response := some body,
         retries := some retries, error := none, skipped := none, skipReason := none },
       [], 1)
    | outcome =>
      let e := attemptError outcome
      let r := retries + 1
      if r ≤ maxR then
        let d := backoffDelay strategy base r
        let rec_ := sendLoop attempt strategy base maxR (some e) r fuel
        (rec_.1, d :: rec_.2.1, rec_.2.2 + 1)
      else
        ({ success := false, statusCode := none, response := none,
           retries := some r, error := some e, skipped := none, skipReason := none },
         [], 1)

/-- Shallow embedding of WebhookClient.sendToWebhook. The serialized
payload and its signature are immutable across attempts and do not
influence control flow, so the network call is abstracted by the
attempt oracle. With no configuration the method returns a failure
without attempting.
Defaulting follows the source exactly: maxRetries or-else 3,
retryStrategy or-else linear, retryDelay or-else 1000, where or-else
is the JavaScript logical-or (so a configured 0 falls back to the
default). -/
def sendToWebhook (cfg : Option WebhookConfig) (attempt : Nat → AttemptOutcome) :
    WebhookResult × List Nat × Nat :=
  match cfg with
  | none =>
    ({ success := false, statusCode := none, response := none,
       retries := none, error := some "No webhook configuration set",
       skipped := none, skipReason := none },
     [], 0)
  | some c =>
    let maxR := jsOrNat c.maxRetries 3
    let strategy := c.retryStrategy.getD .linear
    let base := jsOrNat c.retryDelay 1000
    sendLoop attempt strategy base maxR none 0 (maxR + 1)


/-- Template-literal interpolation of a possibly undefined string: in
JavaScript an undefined value prints as the word undefined. -/
def jsInterp (o : Option String) : String :=
  o.getD "undefined"

/-- Validation mode of TemplateValidationConfig (webhook-types.ts). -/
inductive TVMode
  | disabled
  | anyOf
  | specific
deriving DecidableEq, Repr

/-- A structured-content panel, keyed by its template identifier. -/
structure PanelRec where
  template_slug : String
  panelId : String
deriving DecidableEq, Repr

/-- TemplateValidationConfig from src/webhook-types.ts. The template
name map is an association list. -/
structure TemplateValidationConfig where
  enabled : Bool
  mode : TVMode
  requiredTemplateIds : List String
  templateNames : List (String × String)
deriving DecidableEq, Repr

/-- Return shape of WebhookClient.validateTemplates. -/
structure ValidateResult where
  shouldSkip : Bool
  result : Option WebhookResult
  matchedPanel : Option PanelRec
deriving DecidableEq, Repr

/-- Display name of a template id: the configured name, falling back
to the raw id under JavaScript logical-or (so an empty configured
name also falls back). -/
def templateDisplayName (names : List (String × String)) (id : String) : String :=
  jsStrOr (names.lookup id) id

/-- Skip result built by validateTemplates when no required template
is present, shared verbatim by the anyOf and specific branches. -/
def missingTemplateResult (meetingTitle : Option String)
    (config : TemplateValidationConfig) : WebhookResult :=
  let templateNames :=
    String.intercalate ", "
      (config.requiredTemplateIds.map (templateDisplayName config.templateNames))
  { success := false, statusCode := none, response := none, retries := none,
    error := some ("Meeting skipped: Required template(s) not applied to \"" ++
      jsInterp meetingTitle ++ "\". Required: " ++ templateNames),
    skipped := some true, skipReason := some "missing_required_template" }

/-- Shallow embedding of WebhookClient.validateTemplates. A missing
or disabled configuration admits every meeting; otherwise the panels
are filtered by membership of their template id in the required list,
computed once before the mode switch, and the anyOf and specific
branches run the same accept logic. -/
def validateTemplates (panels : List PanelRec) (meetingTitle : Option String)
    (tv : Option TemplateValidationConfig) : ValidateResult :=
  match tv with
  | none => { shouldSkip := false, result := none, matchedPanel := none }
  | some config =>
    if !config.enabled then
      { shouldSkip := false, result := none, matchedPanel := none }
    else
      let matchingPanels :=
        panels.filter (fun panel => config.requiredTemplateIds.contains panel.template_slug)
      match config.mode with
      | .disabled => { shouldSkip := false, result := none, matchedPanel := none }
      | .anyOf =>
        if matchingPanels.isEmpty then
          { shouldSkip := true, result := some (missingTemplateResult meetingTitle config),
            matchedPanel := none }
        else
          { shouldSkip := false, result := none, matchedPanel := matchingPanels.head? }
      | .specific =>
        if matchingPanels.isEmpty then
          { shouldSkip := true, result := some (missingTemplateResult meetingTitle config),
            matchedPanel := none }
        else
          { shouldSkip := false, result := none, matchedPanel := matchingPanels.head? }

/-- Company attached to a person in the upstream document schema. -/
structure CompanyRec where
  name : Option String
deriving DecidableEq, Repr

/-- Person details holding an optional company. -/
structure PersonDetails where
  company : Option CompanyRec
deriving DecidableEq, Repr

/-- A person record of the upstream document schema. -/
structure PersonRec where
  name : Option String
  email : Option String
  details : Option PersonDetails
deriving DecidableEq, Repr

/-- People block of a document: creator plus attendee list. The
attendee list is optional because the source guards it with an
Array.isArray check. -/
structure PeopleRec where
  creator : Option PersonRec
  attendees : Option (List PersonRec)
deriving DecidableEq, Repr

/-- The slice of the upstream Document record used by the webhook
client: identifiers, title, creation timestamp string and people. -/
structure DocRec where
  document_id : Option String
  id : Option String
  title : Option String
  created_at : Option String
  people : Option PeopleRec
deriving DecidableEq, Repr

/-- A transcript segment with speaker, as consumed by
formatTranscriptMarkdown and the duration computation. Times are
epoch milliseconds. -/
structure SegmentRec where
  speaker : String
  text : Option String
  start_time : Option Int
  end_time : Option Int
deriving DecidableEq, Repr

/-- Participant entry of the outgoing payload (webhook-types.ts). -/
structure ParticipantCompany where
  name : Option String
  domain : Option String
deriving DecidableEq, Repr

/-- MeetingParticipant from src/webhook-types.ts. -/
structure MeetingParticipant where
  name : String
  email : String
  role : String
  company : Option ParticipantCompany
deriving DecidableEq, Repr

/-- Organization block of the payload metadata, with the simple
confidence scoring of buildMeetingPayload. -/
structure OrganizationInfo where
  name : String
  confidence : Rat
  titleMatch : Bool
deriving DecidableEq, Repr

/-- Creator block of the payload metadata. -/
structure CreatorInfo where
  name : Option String
  email : Option String
  company : Option String
deriving DecidableEq, Repr

/-- Normalized six-field template content (webhook-types.ts). In the
payload every field is a total string. -/
structure JoshTemplateContent where
  introduction : String
  agendaItems : String
  keyDecisions : String
  actionItems : String
  meetingNarrative : String
  otherNotes : String
deriving DecidableEq, Repr

/-- Template content before normalization: each section extracted
from the matched panel may be missing. -/
structure JoshTemplateIn where
  introduction : Option String
  agendaItems : Option String
  keyDecisions : Option String
  actionItems : Option String
  meetingNarrative : Option String
  otherNotes : Option String
deriving DecidableEq, Repr

/-- Enhanced transcript wrapper of the payload. -/
structure EnhancedTranscript where
  segments : Option (List SegmentRec)
deriving DecidableEq, Repr

/-- Metadata block of the payload. -/
structure MeetingMetadata where
  participants : List MeetingParticipant
  duration : Option Rat
  organization : OrganizationInfo
  creator : Option CreatorInfo
deriving DecidableEq, Repr

/-- MeetingPayload from src/webhook-types.ts, as built by
buildMeetingPayload. -/
structure MeetingPayload where
  meetingId : String
  meetingTitle : String
  meetingDate : String
  metadata : MeetingMetadata
  joshTemplate : JoshTemplateContent
  transcriptMarkdown : String
  enhancedTranscript : Option EnhancedTranscript
  processingTimestamp : String
deriving DecidableEq, Repr

/-- Speaker text flushed when the speaker changes inside
formatTranscriptMarkdown. -/
def flushSpeaker (speaker : String) (speakerSegments : List String) : String :=
  speaker ++ ":  \n" ++ (String.intercalate " " speakerSegments).trim ++ "  \n\n"

/-- Push of a segment text onto the accumulated speaker segments:
only pushed when the trimmed text is truthy, and pushed untrimmed. -/
def pushSegmentText (seg : SegmentRec) (speakerSegments : List String) : List String :=
  match seg.text with
  | some t => if t.trim ≠ "" then speakerSegments ++ [t] else speakerSegments
  | none => speakerSegments

/-- Loop of formatTranscriptMarkdown: the current speaker starts as
null, accumulated text is flushed on each speaker change, and the
final speaker is flushed with a single trailing newline when any text
was accumulated. -/
def formatLoop : List SegmentRec → Option String → List String → String
  | [], cur, speakerSegments =>
    match cur with
    | some sp =>
      if speakerSegments.length ≠ 0 then
        sp ++ ":  \n" ++ (String.intercalate " " speakerSegments).trim ++ "  \n"
      else ""
    | none => ""
  | seg :: rest, cur, speakerSegments =>
    match cur with
    | some sp =>
      if sp ≠ seg.speaker then
        flushSpeaker sp speakerSegments ++
          formatLoop rest (some seg.speaker) (pushSegmentText seg [])
      else
        formatLoop rest (some seg.speaker) (pushSegmentText seg speakerSegments)
    | none => formatLoop rest (some seg.speaker) (pushSegmentText seg speakerSegments)

/-- Shallow embedding of WebhookClient.formatTranscriptMarkdown. -/
def formatTranscriptMarkdown (segments : List SegmentRec) : String :=
  " \n" ++ formatLoop segments none []

/-- Meeting id of a document under the chained logical-or of
document_id, id and the empty string. -/
def docKey (document : DocRec) : String :=
  jsStrOr document.document_id (jsStrOr document.id "")

/-- Company block of a payload participant, present exactly when the
person has company details. -/
def participantCompany (person : PersonRec) : Option ParticipantCompany :=
  match person.details.bind (fun d => d.company) with
  | some comp => some { name := comp.name, domain := person.email.bind emailDomain }
  | none => none

/-- Participant extraction of buildMeetingPayload: the creator first,
then every attendee whose email differs from the creator email under
strict JavaScript inequality. -/
def participantsOf (people : Option PeopleRec) : List MeetingParticipant :=
  let creatorOpt := people.bind (fun p => p.creator)
  let creatorPart : List MeetingParticipant :=
    match creatorOpt with
    | some creator =>
      [{ name := jsStrOr creator.name "Unknown",
         email := jsStrOr creator.email "unknown@example.com",
         role := "Creator",
         company := participantCompany creator }]
    | none => []
  let creatorEmail := creatorOpt.bind (fun c => c.email)
  let attendeeParts : List MeetingParticipant :=
    match people.bind (fun p => p.attendees) with
    | some attendees =>
      (attendees.filter (fun a => a.email != creatorEmail)).map (fun attendee =>
        { name := jsStrOr attendee.name "Unknown",
          email := jsStrOr attendee.email "unknown@example.com",
          role := "Attendee",
          company := participantCompany attendee })
    | none => []
  creatorPart ++ attendeeParts

/-- Organization block with the simple confidence scoring of
buildMeetingPayload: 0.8 when detection returned a truthy name, else
0.5; titleMatch checks lower-case containment in the title. -/
def organizationInfoOf (organization : Option String) (title : Option String) :
    OrganizationInfo :=
  { name := jsStrOr organization "Unknown",
    confidence := if (truthyStr organization).isSome then (4 : Rat) / 5 else (1 : Rat) / 2,
    titleMatch :=
      match truthyStr organization, title with
      | some org, some t => jsIncludes t.toLower org.toLower
      | _, _ => false }

/-- Duration in seconds between the first segment start and the last
segment end, defined only when a transcript with at least two
segments and both endpoint times is present. -/
def durationOf (enhancedTranscript : Option EnhancedTranscript) : Option Rat :=
  match enhancedTranscript with
  | some t =>
    match t.segments with
    | some segs =>
      if segs.length ≥ 2 then
        match segs.head?, segs.getLast? with
        | some firstSegment, some lastSegment =>
          match firstSegment.start_time, lastSegment.end_time with
          | some s, some e => some (((e - s : Int) : Rat) / 1000)
          | _, _ => none
        | _, _ => none
      else none
    | none => none
  | none => none

/-- Meeting date selection of buildMeetingPayload: the original
created_at string is kept verbatim when truthy and parseable as a
date, otherwise the current timestamp is used. -/
def meetingDateOf (parseDate : String → Option Int) (now : String)
    (created_at : Option String) : String :=
  match truthyStr created_at with
  | some s => if (parseDate s).isSome then s else now
  | none => now

/-- Shallow embedding of WebhookClient.buildMeetingPayload. The
injected OrganizationDetector and the platform date parser are oracle
parameters; now stands for the current ISO timestamp. -/
def buildMeetingPayload (detect : DocRec → Option String) (parseDate : String → Option Int)
    (now : String) (document : DocRec) (joshTemplateContent : Option JoshTemplateIn)
    (transcriptMarkdown : Option String) (enhancedTranscript : Option EnhancedTranscript) :
    MeetingPayload :=
  let organization := detect document
  let normalizedJoshTemplate : JoshTemplateContent :=
    match joshTemplateContent with
    | some c =>
      { introduction := jsStrOr c.introduction "",
        agendaItems := jsStrOr c.agendaItems "",
        keyDecisions := jsStrOr c.keyDecisions "",
        actionItems := jsStrOr c.actionItems "",
        meetingNarrative := jsStrOr c.meetingNarrative "",
        otherNotes := jsStrOr c.otherNotes "" }
    | none =>
      { introduction := "", agendaItems := "", keyDecisions := "",
        actionItems := "", meetingNarrative := "", otherNotes := "" }
  { meetingId := docKey document,
    meetingTitle := jsStrOr document.title "Untitled Meeting",
    meetingDate := meetingDateOf parseDate now document.created_at,
    metadata :=
      { participants := participantsOf document.people,
        duration := durationOf enhancedTranscript,
        organization := organizationInfoOf organization document.title,
        creator :=
          match document.people.bind (fun p => p.creator) with
          | some c =>
            some { name := c.name, email := c.email,
                   company := (c.details.bind (fun d => d.company)).bind (fun comp => comp.name) }
          | none => none },
    joshTemplate := normalizedJoshTemplate,
    transcriptMarkdown := jsStrOr transcriptMarkdown "",
    enhancedTranscript := enhancedTranscript,
    processingTimestamp := now }

/-- Oracle environment of a single processMeeting call: the awaited
upstream calls, the injected detector, the platform date parser, the
network attempt oracle of the delivery loop and the current ISO
timestamp. -/
structure PMEnv where
  fetchDoc : Except String (Option DocRec)
  fetchPanels : Except String (List PanelRec)
  fetchTranscript : Except String (List SegmentRec)
  extract : PanelRec → String → Option String
  detect : DocRec → Option String
  parseDate : String → Option Int
  attempt : Nat → AttemptOutcome
  now : String

/-- Body of the try block of WebhookClient.processMeeting: fetch the
document, fetch the panels, validate, extract template sections,
optionally fetch and format the transcript, build the payload and
deliver. Every thrown error surfaces as the error case. -/
def processMeetingTry (cfg : WebhookConfig) (tv : Option TemplateValidationConfig)
    (env : PMEnv) (documentId : String) : Except String WebhookResult :=
  match env.fetchDoc with
  | .error e => .error e
  | .ok none => .error ("Document not found: " ++ documentId)
  | .ok (some document) =>
    match env.fetchPanels with
    | .error e => .error e
    | .ok panels =>
      let templateValidationResult := validateTemplates panels document.title tv
      if templateValidationResult.shouldSkip then
        .ok (templateValidationResult.result.getD emptyResult)
      else
        let joshTemplateContent : Option JoshTemplateIn :=
          templateValidationResult.matchedPanel.map (fun templatePanel =>
            { introduction := env.extract templatePanel "Introduction",
              agendaItems := env.extract templatePanel "Agenda Items",
              keyDecisions := env.extract templatePanel "Key Decisions",
              actionItems := env.extract templatePanel "Action Items",
              meetingNarrative := env.extract templatePanel "Meeting Narrative",
              otherNotes := env.extract templatePanel "Other Discussion & Notes" })
        let transcriptStep : Except String (Option String × Option EnhancedTranscript) :=
          if cfg.includeTranscript.getD false then
            env.fetchTranscript.map (fun segs =>
              (some (formatTranscriptMarkdown segs), some { segments := some segs }))
          else .ok (none, none)
        match transcriptStep with
        | .error e => .error e
        | .ok (transcriptMarkdown, enhancedTranscript) =>
          let _payload := buildMeetingPayload env.detect env.parseDate env.now document
            joshTemplateContent transcriptMarkdown enhancedTranscript
          .ok (sendToWebhook (some cfg) env.attempt).1

/-- Shallow embedding of WebhookClient.processMeeting. With no
webhook configuration the method throws before entering its try
block, as its documentation states; inside the try block every thrown
error is caught and converted to a failed result carrying the error
message. -/
def processMeeting (cfg : Option WebhookConfig) (tv : Option TemplateValidationConfig)
    (env : PMEnv) (documentId : String) : Except String WebhookResult :=
  match cfg with
  | none => .error "No webhook configuration set. Call setWebhookConfig() first."
  | some c =>
    match processMeetingTry c tv env documentId with
    | .ok r => .ok r
    | .error e =>
      .ok { success := false, statusCode := none, response := none,
            retries := none, error := some e, skipped := none, skipReason := none }

/-- Loop id of a document in processUnprocessedMeetings: the chained
logical-or of document_id and id, undefined when both are falsy, in
which case the loop skips the document with continue. -/
def docLoopId (document : DocRec) : Option String :=
  truthyStr document.document_id <|> truthyStr document.id

/-- Filter predicate of processUnprocessedMeetings: a document is
kept when it is not older than the optional since date (an unparsable
or missing creation date compares as NaN and is kept) and its key is
not in the processed id set. -/
def docPasses (parseDate : String → Option Int) (since : Option Int)
    (processedIds : List String) (doc : DocRec) : Bool :=
  (match since with
   | none => true
   | some s =>
     match truthyStr doc.created_at with
     | none => true
     | some str =>
       match parseDate str with
       | none => true
       | some docDate => decide (¬ docDate < s)) &&
  !(processedIds.contains (docKey doc))

/-- Sequential per-document loop of processUnprocessedMeetings: each
attempted id is added to the processed set regardless of outcome.
Returns the collected results, the final processed id set and the
list of ids for which per-meeting processing was invoked. -/
def processLoop (pm : String → WebhookResult) :
    List DocRec → List String → List WebhookResult × List String × List String
  | [], processedIds => ([], processedIds, [])
  | doc :: rest, processedIds =>
    match docLoopId doc with
    | none => processLoop pm rest processedIds
    | some documentId =>
      let result := pm documentId
      let out := processLoop pm rest (processedIds ++ [documentId])
      (result :: out.1, out.2.1, documentId :: out.2.2)

/-- Shallow embedding of WebhookClient.processUnprocessedMeetings.
The fetched page is the docs parameter; per-meeting processing is the
pm oracle. The filter runs once, against the initial processed set,
before the loop starts. -/
def processUnprocessedMeetings (pm : String → WebhookResult)
    (parseDate : String → Option Int) (since : Option Int)
    (processedIds : List String) (docs : List DocRec) :
    List WebhookResult × List String × List String :=
  let unprocessedDocs := docs.filter (docPasses parseDate since processedIds)
  processLoop pm unprocessedDocs processedIds

/-- Result of one output destination (src/output-destinations.ts). -/
structure OutputResult where
  success : Bool
  destination : String
  error : Option String
deriving DecidableEq, Repr

/-- The four output destination kinds, in the order the source
iterates them. -/
inductive SinkKind
  | webhook
  | airtable
  | googleSheets
  | jsonFile
deriving DecidableEq, Repr

/-- Destination name reported in an OutputResult. -/
def sinkName : SinkKind → String
  | .webhook => "webhook"
  | .airtable => "airtable"
  | .googleSheets => "google_sheets"
  | .jsonFile => "json_file"

/-- Webhook block of OutputConfig (webhook-types.ts). -/
structure WebhookOutputCfg where
  enabled : Bool
  url : Option String
  headers : List (String × String)
deriving DecidableEq, Repr

/-- Airtable block of OutputConfig. -/
structure AirtableCfg where
  enabled : Bool
  apiKey : Option String
  baseId : Option String
  tableName : Option String
deriving DecidableEq, Repr

/-- Google Sheets block of OutputConfig. -/
structure GoogleSheetsCfg where
  enabled : Bool
  spreadsheetId : Option String
  sheetName : Option String
deriving DecidableEq, Repr

/-- JSON file block of OutputConfig. -/
structure JsonFileCfg where
  enabled : Bool
  filePath : Option String
  appendMode : Option Bool
deriving DecidableEq, Repr

/-- OutputConfig from src/webhook-types.ts. -/
structure OutputConfig where
  webhook : Option WebhookOutputCfg
  airtable : Option AirtableCfg
  googleSheets : Option GoogleSheetsCfg
  jsonFile : Option JsonFileCfg
deriving DecidableEq, Repr

/-- JavaScript truthiness of an optional string as a Bool. -/
def truthyOptStr (o : Option String) : Bool :=
  (truthyStr o).isSome

/-- Activation guard of each sink, exactly as written in
sendToOutputs: the enabled flag plus the required truthy fields. -/
def sinkActive (cfg : OutputConfig) : SinkKind → Bool
  | .webhook =>
    match cfg.webhook with
    | some w => w.enabled && truthyOptStr w.url
    | none => false
  | .airtable =>
    match cfg.airtable with
    | some a => a.enabled && truthyOptStr a.apiKey && truthyOptStr a.baseId
    | none => false
  | .googleSheets =>
    match cfg.googleSheets with
    | some g => g.enabled && truthyOptStr g.spreadsheetId
    | none => false
  | .jsonFile =>
    match cfg.jsonFile with
    | some j => j.enabled && truthyOptStr j.filePath
    | none => false

/-- One guarded try/catch block of sendToOutputs: when the sink is
active its send either contributes its result or, when it throws, a
failed result carrying the error message; an inactive sink
contributes nothing. -/
def sinkBlock (cfg : OutputConfig) (send : SinkKind → Except String OutputResult)
    (k : SinkKind) : List OutputResult :=
  if sinkActive cfg k then
    [match send k with
     | .ok r => r
     | .error e => { success := false, destination := sinkName k, error := some e }]
  else []

/-- Shallow embedding of OutputDestinationManager.sendToOutputs: the
four guarded blocks run in source order and their results are
collected. -/
def sendToOutputs (cfg : OutputConfig) (send : SinkKind → Except String OutputResult) :
    List OutputResult :=
  sinkBlock cfg send .webhook ++ sinkBlock cfg send .airtable ++
    sinkBlock cfg send .googleSheets ++ sinkBlock cfg send .jsonFile

/-- Iteration order of the sinks, used to state properties of
sendToOutputs. -/
def sinkOrder : List SinkKind :=
  [.webhook, .airtable, .googleSheets, .jsonFile]

/-- Skip-ledger entry (src/state/types.ts, SkippedMeeting). The
last-notified timestamp is epoch milliseconds. -/
structure SkippedMeeting where
  id : String
  title : String
  skipReason : String
  last_notified_at : Int
  skip_count : Nat
deriving DecidableEq, Repr

/-- Hours elapsed between two epoch-millisecond timestamps, as the
exact value of the source division by 1000 * 60 * 60. -/
def hoursSince (now last : Int) : Rat :=
  ((now - last : Int) : Rat) / (1000 * 60 * 60)

/-- Find-and-mutate step of shouldNotifyForSkipped on the skip
ledger: the first entry with the given id is updated in place and the
notification decision is returned; none when no entry matches. -/
def skipCheck (now : Int) (meetingId meetingTitle : String) :
    List SkippedMeeting → Option (Bool × List SkippedMeeting)
  | [] => none
  | e :: rest =>
    if e.id = meetingId then
      let c := e.skip_count + 1
      let shouldNotify := decide (c % 5 = 0) || decide (hoursSince now e.last_notified_at ≥ 24)
      some (shouldNotify,
        { e with
          skip_count := c
          title := meetingTitle
          last_notified_at := if shouldNotify then now else e.last_notified_at } :: rest)
    else
      (skipCheck now meetingId meetingTitle rest).map (fun out => (out.1, e :: out.2))

/-- Shallow embedding of StateManager.shouldNotifyForSkipped: a first
skip appends a fresh entry with count 1 and notifies; a repeat skip
increments the count, refreshes the title, notifies when the new
count is divisible by 5 or at least 24 hours passed since the last
notification, and moves the last-notified timestamp only when it
notifies. -/
def shouldNotifyForSkipped (now : Int) (meetingId meetingTitle skipReason : String)
    (st : List SkippedMeeting) : Bool × List SkippedMeeting :=
  match skipCheck now meetingId meetingTitle st with
  | some out => out
  | none =>
    (true, st ++ [{ id := meetingId, title := meetingTitle, skipReason := skipReason,
                    last_notified_at := now, skip_count := 1 }])

/-- Repeated skip checks of the same meeting at the given call times,
threading the ledger state. -/
def skipCalls (meetingId meetingTitle skipReason : String) :
    List Int → List SkippedMeeting → List Bool × List SkippedMeeting
  | [], st => ([], st)
  | t :: ts, st =>
    let step := shouldNotifyForSkipped t meetingId meetingTitle skipReason st
    let out := skipCalls meetingId meetingTitle skipReason ts step.2
    (step.1 :: out.1, out.2)

/-- FailureTracking from src/state/types.ts. Timestamps are epoch
milliseconds; the null last-notification time is none. -/
structure FailureTracking where
  consecutiveFailures : Nat
  lastNotificationTime : Option Int
  lastSuccessTime : Option Int
deriving DecidableEq, Repr

/-- Fresh failure tracking block as initialized by the source when
the field is absent from loaded state. -/
def initFailureTracking (now : Int) : FailureTracking :=
  { consecutiveFailures := 0, lastNotificationTime := none, lastSuccessTime := some now }

/-- Return shape of StateManager.recordFailure. -/
structure FailureNotifyDecision where
  shouldNotify : Bool
  count : Nat
  previousFailures : Nat
deriving DecidableEq, Repr

/-- Shallow embedding of StateManager.recordFailure: increments the
consecutive failure streak, notifies on the first failure and on
every streak divisible by 3, and stamps the notification time when it
notifies. -/
def recordFailure (now : Int) (ft : Option FailureTracking) :
    FailureNotifyDecision × FailureTracking :=
  let ft0 := ft.getD (initFailureTracking now)
  let previousFailures := ft0.consecutiveFailures
  let c := previousFailures + 1
  let shouldNotify := decide (c = 1) || decide (c % 3 = 0)
  ({ shouldNotify := shouldNotify, count := c, previousFailures := previousFailures },
   { ft0 with
     consecutiveFailures := c
     lastNotificationTime := if shouldNotify then some now else ft0.lastNotificationTime })

/-- Shallow embedding of StateManager.recordSuccess: resets the
streak to zero and stamps the success time, whatever the previous
streak was. -/
def recordSuccess (now : Int) (ft : Option FailureTracking) : FailureTracking :=
  let ft0 := ft.getD (initFailureTracking now)
  { ft0 with consecutiveFailures := 0, lastSuccessTime := some now }

/-- Attempt oracle whose every attempt returns HTTP 500, as in the
spec scenario of a sink that always fails. -/
def failAllAttempts : Nat → AttemptOutcome :=
  fun _ => .httpErr 500 "Internal Server Error"

/-- Attempt oracle that succeeds immediately with HTTP 200. -/
def okAttempt : Nat → AttemptOutcome :=
  fun _ => .ok 200 "OK"

/-- Delivery configuration with maxRetries 2 and the remaining
options left at their defaults. -/
def cfgRetries2 : WebhookConfig :=
  { url := "https://example.com/hook", headers := [], secret := none,
    maxRetries := some 2, retryStrategy := none, retryDelay := none,
    includeTranscript := none }

/-- Delivery configuration with a configured retry count of zero. -/
def cfgRetries0 : WebhookConfig :=
  { cfgRetries2 with maxRetries := some 0 }

/-- Delivery configuration with one retry. -/
def cfgRetries1 : WebhookConfig :=
  { cfgRetries2 with maxRetries := some 1 }

/-- Linear backoff configuration with base delay 10 and 2 retries. -/
def cfgLinear10 : WebhookConfig :=
  { cfgRetries2 with retryStrategy := some .linear, retryDelay := some 10 }

/-- Exponential backoff configuration with base delay 10 and 2
retries. -/
def cfgExp10 : WebhookConfig :=
  { cfgRetries2 with retryStrategy := some .exponential, retryDelay := some 10 }

/-- Environment whose document fetch throws a network error; the
remaining oracles are inert. -/
def envFetchThrows : PMEnv :=
  { fetchDoc := .error "network down", fetchPanels := .ok [],
    fetchTranscript := .ok [], extract := fun _ _ => none,
    detect := fun _ => none, parseDate := fun _ => none,
    attempt := okAttempt, now := "2026-01-01T00:00:00.000Z" }

/-- A fetched document carrying only a document_id. -/
def docB : DocRec :=
  { document_id := some "doc-b", id := none, title := some "Meeting B",
    created_at := none, people := none }

/-- A fetched document carrying only an id and nothing else. -/
def docPlain : DocRec :=
  { document_id := none, id := some "doc-9", title := none,
    created_at := none, people := none }

/-- Per-meeting processing oracle that always succeeds. -/
def pmAlwaysOk : String → WebhookResult :=
  fun _ =>
    { success := true, statusCode := some 200, response := some "OK",
      retries := some 0, error := none, skipped := none, skipReason := none }

/-- Output configuration with three active sinks (webhook, airtable,
json file) and the sheets sink absent. -/
def outCfgThree : OutputConfig :=
  { webhook := some { enabled := true, url := some "https://example.com/hook", headers := [] },
    airtable := some { enabled := true, apiKey := some "key", baseId := some "base", tableName := none },
    googleSheets := none,
    jsonFile := some { enabled := true, filePath := some "/data/out.json", appendMode := some true } }

/-- Sink sender where exactly the airtable sink throws. -/
def sendOneThrows : SinkKind → Except String OutputResult
  | .airtable => .error "Airtable request failed: 500 Internal Server Error - boom"
  | k => .ok { success := true, destination := sinkName k, error := none }

/-- Consecutive failure streak stored in an optional tracking block:
zero when the block is absent, matching the lazy initialization of
the source. -/
def streakOf : Option FailureTracking → Nat
  | some f => f.consecutiveFailures
  | none => 0

/-- Invariant of the delivery loop: at least one and at most fuel
attempts are made; a successful result reports the number of attempts
beyond the first as retries; an exhausted run uses all its fuel and
reports maxR + 1 as retries; and the awaited delays are exactly the
backoff values for retry numbers 1 to n - 1, so no delay follows the
final attempt. -/
theorem sendLoop_spec (attempt : Nat → AttemptOutcome) (strategy : RetryStrategy)
    (base maxR : Nat) :
    ∀ fuel retries lastErr res ds n,
    0 < fuel → retries + fuel = maxR + 1 →
    sendLoop attempt strategy base maxR lastErr retries fuel = (res, ds, n) →
    1 ≤ n ∧ n ≤ fuel ∧
    (res.success = true → res.retries = some (retries + n - 1)) ∧
    (res.success = false → n = fuel ∧ res.retries = some (maxR + 1)) ∧
    ds = (List.range (n - 1)).map (fun i => backoffDelay strategy base (retries + i + 1)) := by
  intro fuel
  induction fuel with
  | zero => intro retries lastErr res ds n h0; omega
  | succ f ih =>
    intro retries lastErr res ds n _ hsum heq
    rw [sendLoop] at heq
    cases hA : attempt retries with
    | ok status body =>
      rw [hA] at heq
      simp only [Prod.mk.injEq] at heq
      obtain ⟨hres, hds, hn⟩ := heq
      subst hres hds hn
      refine ⟨le_refl 1, by omega, ?_, ?_, by simp⟩
      · intro _; simp
      · intro hs; simp at hs
    | httpErr status statusText =>
      rw [hA] at heq
      simp only at heq
      by_cases hr : retries + 1 ≤ maxR
      · rw [if_pos hr] at heq
        rcases hrec : sendLoop attempt strategy base maxR
            (some (attemptError (AttemptOutcome.httpErr status statusText))) (retries + 1) f
          with ⟨res', ds', n'⟩
        rw [hrec] at heq
        simp only [Prod.mk.injEq] at heq
        obtain ⟨hres, hds, hn⟩ := heq
        have hf : 0 < f := by omega
        have hsum' : (retries + 1) + f = maxR + 1 := by omega
        obtain ⟨h1, h2, h3, h4, h5⟩ := ih (retries + 1) _ res' ds' n' hf hsum' hrec
        subst hres hn
        refine ⟨by omega, by omega, ?_, ?_, ?_⟩
        · intro hs
          have := h3 hs
          rw [this]
          congr 1
          omega
        · intro hs
          obtain ⟨ha, hb⟩ := h4 hs
          exact ⟨by omega, hb⟩
        · subst hds
          rw [h5]
          have hn1 : n' + 1 - 1 = (n' - 1) + 1 := by omega
          rw [hn1, List.range_succ_eq_map, List.map_cons, List.map_map]
          refine congrArg₂ List.cons ?_ ?_
          · norm_num
          · apply List.map_congr_left
            intro a _
            simp only [Function.comp_apply]
            congr 1
            omega
      · rw [if_neg hr] at heq
        simp only [Prod.mk.injEq] at heq
        obtain ⟨hres, hds, hn⟩ := heq
        subst hres hds hn
        have hfe : f = 0 := by omega
        refine ⟨le_refl 1, by omega, ?_, ?_, by simp⟩
        · intro hs; simp at hs
        · intro _; simp; omega
    | exn msg =>
      rw [hA] at heq
      simp only at heq
      by_cases hr : retries + 1 ≤ maxR
      · rw [if_pos hr] at heq
        rcases hrec : sendLoop attempt strategy base maxR
            (some (attemptError (AttemptOutcome.exn msg))) (retries + 1) f
          with ⟨res', ds', n'⟩
        rw [hrec] at heq
        simp only [Prod.mk.injEq] at heq
        obtain ⟨hres, hds, hn⟩ := heq
        have hf : 0 < f := by omega
        have hsum' : (retries + 1) + f = maxR + 1 := by omega
        obtain ⟨h1, h2, h3, h4, h5⟩ := ih (retries + 1) _ res' ds' n' hf hsum' hrec
        subst hres hn
        refine ⟨by omega, by omega, ?_, ?_, ?_⟩
        · intro hs
          have := h3 hs
          rw [this]
          congr 1
          omega
        · intro hs
          obtain ⟨ha, hb⟩ := h4 hs
          exact ⟨by omega, hb⟩
        · subst hds
          rw [h5]
          have hn1 : n' + 1 - 1 = (n' - 1) + 1 := by omega
          rw [hn1, List.range_succ_eq_map, List.map_cons, List.map_map]
          refine congrArg₂ List.cons ?_ ?_
          · norm_num
          · apply List.map_congr_left
            intro a _
            simp only [Function.comp_apply]
            congr 1
            omega
      · rw [if_neg hr] at heq
        simp only [Prod.mk.injEq] at heq
        obtain ⟨hres, hds, hn⟩ := heq
        subst hres hds hn
        refine ⟨le_refl 1, by omega, ?_, ?_, by simp⟩
        · intro hs; simp at hs
        · intro _; simp; omega
/-- C10: for every panel list, meeting title and otherwise identical
configuration, validateTemplates in anyOf mode returns exactly the
same result as in specific mode: the two modes share the accept logic
requiring at least one panel whose template id is required. -/
theorem validateTemplates_any_eq_specific (enabled : Bool) (ids : List String)
    (names : List (String × String)) (panels : List PanelRec)
    (meetingTitle : Option String) :
    validateTemplates panels meetingTitle
        (some { enabled := enabled, mode := TVMode.anyOf,
                requiredTemplateIds := ids, templateNames := names }) =
      validateTemplates panels meetingTitle
        (some { enabled := enabled, mode := TVMode.specific,
                requiredTemplateIds := ids, templateNames := names }) := by
  unfold validateTemplates
  cases enabled with
  | false => rfl
  | true =>
    simp only []
    split_ifs <;> rfl

/-- C8: recordFailure increments the consecutive failure streak by
exactly one and notifies exactly when the new count is 1 or divisible
by 3, and recordSuccess resets the streak to 0 whatever its previous
value, including an absent tracking block. -/
theorem recordFailure_recordSuccess_spec (now : Int) (ft : Option FailureTracking) :
    (recordFailure now ft).2.consecutiveFailures = streakOf ft + 1 ∧
    (recordFailure now ft).1.count = streakOf ft + 1 ∧
    (recordFailure now ft).1.previousFailures = streakOf ft ∧
    (recordFailure now ft).1.shouldNotify =
      (decide (streakOf ft + 1 = 1) || decide ((streakOf ft + 1) % 3 = 0)) ∧
    (recordSuccess now ft).consecutiveFailures = 0 := by
  cases ft with
  | none => exact ⟨rfl, rfl, rfl, rfl, rfl⟩
  | some f => exact ⟨rfl, rfl, rfl, rfl, rfl⟩

/-- C9: every payload built by buildMeetingPayload carries the
document key as meetingId and the current timestamp as
processingTimestamp, and its six template fields are total strings:
all empty when no template content was extracted, and each defaulting
to the empty string when its section is missing. -/
theorem buildMeetingPayload_normalization (detect : DocRec → Option String)
    (parseDate : String → Option Int) (now : String) (document : DocRec)
    (content : Option JoshTemplateIn) (tm : Option String)
    (et : Option EnhancedTranscript) :
    (buildMeetingPayload detect parseDate now document content tm et).meetingId =
      docKey document ∧
    (buildMeetingPayload detect parseDate now document content tm et).processingTimestamp =
      now ∧
    (content = none →
      (buildMeetingPayload detect parseDate now document content tm et).joshTemplate =
        { introduction := "", agendaItems := "", keyDecisions := "",
          actionItems := "", meetingNarrative := "", otherNotes := "" }) ∧
    (∀ c, content = some c →
      (buildMeetingPayload detect parseDate now document content tm et).joshTemplate =
        { introduction := jsStrOr c.introduction "",
          agendaItems := jsStrOr c.agendaItems "",
          keyDecisions := jsStrOr c.keyDecisions "",
          actionItems := jsStrOr c.actionItems "",
          meetingNarrative := jsStrOr c.meetingNarrative "",
          otherNotes := jsStrOr c.otherNotes "" }) := by
  refine ⟨rfl, rfl, ?_, ?_⟩
  · intro h
    subst h
    rfl
  · intro c h
    subst h
    rfl

/-- Closed instance of the payload normalization theorem at a
document with no matching template panel. -/
theorem buildMeetingPayload_normalization_witness :
    (buildMeetingPayload (fun _ => none) (fun _ => none) "2026-01-01T00:00:00.000Z"
        docPlain none none none).joshTemplate =
      { introduction := "", agendaItems := "", keyDecisions := "",
        actionItems := "", meetingNarrative := "", otherNotes := "" } ∧
    (buildMeetingPayload (fun _ => none) (fun _ => none) "2026-01-01T00:00:00.000Z"
        docPlain none none none).meetingId = docKey docPlain ∧
    (buildMeetingPayload (fun _ => none) (fun _ => none) "2026-01-01T00:00:00.000Z"
        docPlain none none none).processingTimestamp = "2026-01-01T00:00:00.000Z" := by
  have h := buildMeetingPayload_normalization (fun _ => none) (fun _ => none)
    "2026-01-01T00:00:00.000Z" docPlain none none none
  exact ⟨h.2.2.1 rfl, h.1, h.2.1⟩

/-- C5: sendToOutputs produces exactly one result per active sink, in
iteration order; a sink whose send throws contributes a failed result
carrying the error message while every other active sink is still
attempted. In the concrete three-sink fixture where the airtable sink
throws, the array has length 3 and the other two results are
present. -/
theorem sendToOutputs_fanout_isolation (cfg : OutputConfig)
    (send : SinkKind → Except String OutputResult) :
    sendToOutputs cfg send =
      (sinkOrder.filter (sinkActive cfg)).map (fun k =>
        match send k with
        | .ok r => r
        | .error e => { success := false, destination := sinkName k, error := some e }) ∧
    (sendToOutputs cfg send).length = (sinkOrder.filter (sinkActive cfg)).length ∧
    sendToOutputs outCfgThree sendOneThrows =
      [{ success := true, destination := "webhook", error := none },
       { success := false, destination := "airtable",
         error := some "Airtable request failed: 500 Internal Server Error - boom" },
       { success := true, destination := "json_file", error := none }] := by
  have hmain : sendToOutputs cfg send =
      (sinkOrder.filter (sinkActive cfg)).map (fun k =>
        match send k with
        | .ok r => r
        | .error e => { success := false, destination := sinkName k, error := some e }) := by
    unfold sendToOutputs sinkOrder sinkBlock
    cases h1 : sinkActive cfg .webhook <;> cases h2 : sinkActive cfg .airtable <;>
      cases h3 : sinkActive cfg .googleSheets <;> cases h4 : sinkActive cfg .jsonFile <;>
      simp [h1, h2, h3, h4]
  refine ⟨hmain, ?_, rfl⟩
  rw [hmain, List.length_map]

/-- C2 (amended): with a configured positive retry bound r the
delivery loop makes at most r + 1 HTTP attempts; on success the
reported retries field equals the number of attempts beyond the
first; when every attempt fails the loop uses exactly r + 1 attempts
and reports retries = r + 1, one more than the attempts beyond the
first. A configured bound of 0 is falsy and falls back to the default
of 3, so it is excluded here and refuted in the counterexample. -/
theorem sendToWebhook_attempt_bound (c : WebhookConfig)
    (attempt : Nat → AttemptOutcome) (r : Nat)
    (hr : c.maxRetries = some r) (hpos : 1 ≤ r) :
    (sendToWebhook (some c) attempt).2.2 ≤ r + 1 ∧
    ((sendToWebhook (some c) attempt).1.success = true →
      (sendToWebhook (some c) attempt).1.retries =
        some ((sendToWebhook (some c) attempt).2.2 - 1)) ∧
    ((sendToWebhook (some c) attempt).1.success = false →
      (sendToWebhook (some c) attempt).2.2 = r + 1 ∧
      (sendToWebhook (some c) attempt).1.retries = some (r + 1)) := by
  have hrne : r ≠ 0 := by omega
  have hm : jsOrNat c.maxRetries 3 = r := by
    simp [jsOrNat, hr, hrne]
  have heq : sendLoop attempt (c.retryStrategy.getD .linear) (jsOrNat c.retryDelay 1000)
      (jsOrNat c.maxRetries 3) none 0 (jsOrNat c.maxRetries 3 + 1) =
      ((sendToWebhook (some c) attempt).1, (sendToWebhook (some c) attempt).2.1,
       (sendToWebhook (some c) attempt).2.2) := rfl
  rw [hm] at heq
  obtain ⟨h1, h2, h3, h4, h5⟩ :=
    sendLoop_spec attempt (c.retryStrategy.getD .linear) (jsOrNat c.retryDelay 1000)
      r (r + 1) 0 none _ _ _ (by omega) (by omega) heq
  refine ⟨h2, ?_, ?_⟩
  · intro hs
    have h := h3 hs
    simpa using h
  · intro hs
    exact h4 hs

/-- Closed instance of the attempt bound theorem at a configuration
with one retry and an immediately successful endpoint. -/
theorem sendToWebhook_attempt_bound_witness :
    (sendToWebhook (some cfgRetries1) okAttempt).2.2 ≤ 2 ∧
    ((sendToWebhook (some cfgRetries1) okAttempt).1.success = true →
      (sendToWebhook (some cfgRetries1) okAttempt).1.retries =
        some ((sendToWebhook (some cfgRetries1) okAttempt).2.2 - 1)) := by
  have h := sendToWebhook_attempt_bound cfgRetries1 okAttempt 1 rfl (by decide)
  exact ⟨h.1, h.2.1⟩

/-- Counterexample to C2 as stated: with maxRetries = 2 and a sink
that always returns HTTP 500 the loop makes 3 attempts but reports
retries = 3, not the 2 attempts beyond the first; and with a
configured maxRetries = 0 the loop makes 4 attempts, not at most
0 + 1, because 0 is falsy and falls back to the default of 3. -/
theorem sendToWebhook_retries_counterexample :
    (sendToWebhook (some cfgRetries2) failAllAttempts).2.2 = 3 ∧
    (sendToWebhook (some cfgRetries2) failAllAttempts).1.retries = some 3 ∧
    (sendToWebhook (some cfgRetries2) failAllAttempts).1.retries ≠
      some ((sendToWebhook (some cfgRetries2) failAllAttempts).2.2 - 1) ∧
    (sendToWebhook (some cfgRetries0) failAllAttempts).2.2 = 4 ∧
    ¬ (sendToWebhook (some cfgRetries0) failAllAttempts).2.2 ≤ 0 + 1 := by
  refine ⟨rfl, rfl, by decide, rfl, by decide⟩

/-- C3 (amended): the delays awaited by the delivery loop are exactly
base * n for the n-th retry under the linear strategy and
base * 2 ^ (n - 1) under the exponential strategy, one delay per
retry and none after the final attempt; with base delay 10 and 2
retries the cumulative wait is 10 + 20 = 30 under both strategies,
not 40 as the backoff-arithmetic bullet of the spec writes for the
exponential case. -/
theorem sendToWebhook_backoff_schedule (c : WebhookConfig)
    (attempt : Nat → AttemptOutcome) :
    (sendToWebhook (some c) attempt).2.1.length =
      (sendToWebhook (some c) attempt).2.2 - 1 ∧
    (sendToWebhook (some c) attempt).2.1 =
      (List.range ((sendToWebhook (some c) attempt).2.2 - 1)).map (fun i =>
        match c.retryStrategy.getD RetryStrategy.linear with
        | .linear => jsOrNat c.retryDelay 1000 * (i + 1)
        | .exponential => jsOrNat c.retryDelay 1000 * 2 ^ i) ∧
    (sendToWebhook (some cfgLinear10) failAllAttempts).2.1 = [10, 20] ∧
    (sendToWebhook (some cfgLinear10) failAllAttempts).2.1.sum = 30 ∧
    (sendToWebhook (some cfgExp10) failAllAttempts).2.1 = [10, 20] ∧
    (sendToWebhook (some cfgExp10) failAllAttempts).2.1.sum = 30 := by
  have heq : sendLoop attempt (c.retryStrategy.getD .linear) (jsOrNat c.retryDelay 1000)
      (jsOrNat c.maxRetries 3) none 0 (jsOrNat c.maxRetries 3 + 1) =
      ((sendToWebhook (some c) attempt).1, (sendToWebhook (some c) attempt).2.1,
       (sendToWebhook (some c) attempt).2.2) := rfl
  obtain ⟨h1, h2, h3, h4, h5⟩ :=
    sendLoop_spec attempt (c.retryStrategy.getD .linear) (jsOrNat c.retryDelay 1000)
      (jsOrNat c.maxRetries 3) (jsOrNat c.maxRetries 3 + 1) 0 none _ _ _
      (by omega) (by omega) heq
  refine ⟨?_, ?_, rfl, rfl, rfl, rfl⟩
  · rw [h5, List.length_map, List.length_range]
  · rw [h5]
    apply List.map_congr_left
    intro a _
    cases hS : c.retryStrategy.getD RetryStrategy.linear <;>
      simp [backoffDelay, hS, Nat.zero_add]

/-- Counterexample to the cumulative-wait figure cited by C3: under
the exponential strategy with base delay 10 and 2 retries the
cumulative wait is 30, not the 40 stated by the backoff-arithmetic
bullet (whose own summands 10 + 20 add to 30). -/
theorem sendToWebhook_exponential_cumulative_counterexample :
    (sendToWebhook (some cfgExp10) failAllAttempts).2.1.sum = 30 ∧
    (sendToWebhook (some cfgExp10) failAllAttempts).2.1.sum ≠ 40 := by
  exact ⟨rfl, by decide⟩

/-- C4 (amended): once a webhook configuration is set, processMeeting
never propagates an exception: it always returns a result, and
whenever the body of its try block throws, the returned result has
success false and carries the thrown error message. With no
configuration the method throws before the try block, which is the
counterexample to the unconditional claim. -/
theorem processMeeting_catches_errors (c : WebhookConfig)
    (tv : Option TemplateValidationConfig) (env : PMEnv) (documentId : String) :
    (∃ r, processMeeting (some c) tv env documentId = Except.ok r) ∧
    (∀ e, processMeetingTry c tv env documentId = Except.error e →
      processMeeting (some c) tv env documentId =
        Except.ok { success := false, statusCode := none, response := none,
                    retries := none, error := some e, skipped := none,
                    skipReason := none }) := by
  constructor
  · cases h : processMeetingTry c tv env documentId with
    | ok r => exact ⟨r, by simp [processMeeting, h]⟩
    | error e =>
      exact ⟨{ success := false, statusCode := none, response := none,
               retries := none, error := some e, skipped := none,
               skipReason := none }, by simp [processMeeting, h]⟩
  · intro e he
    simp [processMeeting, he]

/-- Closed instance of the exception conversion: an environment whose
document fetch throws yields a returned failure carrying the thrown
message. -/
theorem processMeeting_catches_errors_witness :
    processMeeting (some cfgRetries2) none envFetchThrows "doc-404" =
      Except.ok { success := false, statusCode := none, response := none,
                  retries := none, error := some "network down", skipped := none,
                  skipReason := none } :=
  (processMeeting_catches_errors cfgRetries2 none envFetchThrows "doc-404").2
    "network down" rfl

/-- Counterexample to C4 as stated: with no webhook configuration set
processMeeting throws synchronously instead of returning a failed
result, exactly as its documentation comment declares. -/
theorem processMeeting_no_config_throws :
    processMeeting none none envFetchThrows "doc-123" =
      Except.error "No webhook configuration set. Call setWebhookConfig() first." := rfl

/-- When the loop id of a document is defined, it coincides with the
document key used in the processed-set filter. -/
theorem docKey_of_loopId (d : DocRec) (i : String) (h : docLoopId d = some i) :
    docKey d = i := by
  rcases hd : d.document_id with _ | s1 <;> rcases hi : d.id with _ | s2 <;>
    simp only [docLoopId, docKey, truthyStr, jsStrOr, hd, hi, Option.none_orElse,
      Option.some_orElse] at h ⊢ <;>
    (try split_ifs at h ⊢) <;> simp_all

/-- Invariants of the per-document loop: every invoked id is the loop
id of a listed document, the incoming processed set is preserved in
the final set, every invoked id ends in the final set, and one result
is collected per invocation. -/
theorem processLoop_props (pm : String → WebhookResult) :
    ∀ (ds : List DocRec) (acc : List String),
    (∀ i ∈ (processLoop pm ds acc).2.2, ∃ d ∈ ds, docLoopId d = some i) ∧
    (∀ a ∈ acc, a ∈ (processLoop pm ds acc).2.1) ∧
    (∀ i ∈ (processLoop pm ds acc).2.2, i ∈ (processLoop pm ds acc).2.1) ∧
    (processLoop pm ds acc).1.length = (processLoop pm ds acc).2.2.length := by
  intro ds
  induction ds with
  | nil =>
    intro acc
    refine ⟨by simp [processLoop], by simp [processLoop], by simp [processLoop],
      by simp [processLoop]⟩
  | cons doc rest ih =>
    intro acc
    cases hid : docLoopId doc with
    | none =>
      have h := ih acc
      simp only [processLoop, hid]
      refine ⟨?_, h.2.1, h.2.2.1, h.2.2.2⟩
      intro i hi
      obtain ⟨d, hd, hdi⟩ := h.1 i hi
      exact ⟨d, List.mem_cons_of_mem doc hd, hdi⟩
    | some documentId =>
      have h := ih (acc ++ [documentId])
      simp only [processLoop, hid]
      refine ⟨?_, ?_, ?_, ?_⟩
      · intro i hi
        rcases List.mem_cons.mp hi with h1 | h1
        · subst h1
          exact ⟨doc, List.mem_cons_self doc rest, hid⟩
        · obtain ⟨d, hd, hdi⟩ := h.1 i h1
          exact ⟨d, List.mem_cons_of_mem doc hd, hdi⟩
      · intro a ha
        exact h.2.1 a (by simp [ha])
      · intro i hi
        rcases List.mem_cons.mp hi with h1 | h1
        · subst h1
          exact h.2.1 i (by simp)
        · exact h.2.2.1 i h1
      · simpa using h.2.2.2

/-- C1: a batch run never invokes per-meeting processing, and hence
the delivery engine, for a document whose id is in the given
processed set; every id it did attempt is in the set after the run,
whatever the per-meeting outcome was; the incoming set is preserved;
and one result is returned per attempted id. -/
theorem processUnprocessedMeetings_idempotency (pm : String → WebhookResult)
    (parseDate : String → Option Int) (since : Option Int)
    (processedIds : List String) (docs : List DocRec) :
    (∀ i ∈ (processUnprocessedMeetings pm parseDate since processedIds docs).2.2,
      i ∉ processedIds) ∧
    (∀ i ∈ (processUnprocessedMeetings pm parseDate since processedIds docs).2.2,
      i ∈ (processUnprocessedMeetings pm parseDate since processedIds docs).2.1) ∧
    (∀ a ∈ processedIds,
      a ∈ (processUnprocessedMeetings pm parseDate since processedIds docs).2.1) ∧
    (processUnprocessedMeetings pm parseDate since processedIds docs).1.length =
      (processUnprocessedMeetings pm parseDate since processedIds docs).2.2.length := by
  obtain ⟨h1, h2, h3, h4⟩ :=
    processLoop_props pm (docs.filter (docPasses parseDate since processedIds)) processedIds
  refine ⟨?_, h3, h2, h4⟩
  intro i hi
  obtain ⟨d, hd, hdi⟩ := h1 i hi
  have hpass := (List.mem_filter.mp hd).2
  have hdk := docKey_of_loopId d i hdi
  simp only [docPasses, Bool.and_eq_true, Bool.not_eq_true'] at hpass
  rw [hdk] at hpass
  intro hmem
  have hcon := hpass.2
  simp only [List.contains, List.elem_eq_mem, decide_eq_false_iff_not] at hcon
  exact hcon hmem

/-- Closed instance of the batch idempotency theorem: a page with one
new document and a processed set holding a different id attempts the
new id, which was not in the set and is in the set afterwards. -/
theorem processUnprocessedMeetings_idempotency_witness :
    ("doc-b" : String) ∉ ["doc-a"] ∧
    "doc-b" ∈ (processUnprocessedMeetings pmAlwaysOk (fun _ => none) none
      ["doc-a"] [docB]).2.1 := by
  have h := processUnprocessedMeetings_idempotency pmAlwaysOk (fun _ => none) none
    ["doc-a"] [docB]
  have hmem : "doc-b" ∈ (processUnprocessedMeetings pmAlwaysOk (fun _ => none) none
      ["doc-a"] [docB]).2.2 := by
    exact List.mem_singleton.mpr rfl
  exact ⟨h.1 "doc-b" hmem, h.2.1 "doc-b" hmem⟩

/-- A gap under 24 hours in milliseconds yields an hours-elapsed
value under 24. -/
theorem hoursSince_lt_24 (now last : Int) (h : now - last < 86400000) :
    ¬ hoursSince now last ≥ 24 := by
  unfold hoursSince
  intro hge
  rw [ge_iff_le, le_div_iff₀ (by norm_num)] at hge
  have hcast : ((now - last : Int) : Rat) < ((86400000 : Int) : Rat) := by
    exact_mod_cast h
  norm_num at hge hcast
  linarith

/-- The find-and-mutate step misses a ledger holding no entry with
the given id. -/
theorem skipCheck_none (now : Int) (meetingId meetingTitle : String) :
    ∀ st : List SkippedMeeting, (∀ e ∈ st, e.id ≠ meetingId) →
    skipCheck now meetingId meetingTitle st = none := by
  intro st
  induction st with
  | nil => intro _; rfl
  | cons e rest ih =>
    intro h
    unfold skipCheck
    rw [if_neg (h e (List.mem_cons_self e rest))]
    rw [ih (fun x hx => h x (List.mem_cons_of_mem e hx))]
    rfl

/-- The find-and-mutate step on a ledger whose first entry with the
given id is e: the count is incremented, the title refreshed, the
decision is count divisible by 5 or 24 hours elapsed, and the
last-notified timestamp moves to now exactly when the decision is
positive. -/
theorem skipCheck_found (now : Int) (meetingId meetingTitle : String) :
    ∀ (pre : List SkippedMeeting) (e : SkippedMeeting) (post : List SkippedMeeting),
    (∀ x ∈ pre, x.id ≠ meetingId) → e.id = meetingId →
    skipCheck now meetingId meetingTitle (pre ++ e :: post) =
      some (decide ((e.skip_count + 1) % 5 = 0) ||
              decide (hoursSince now e.last_notified_at ≥ 24),
        pre ++ { e with
          skip_count := e.skip_count + 1
          title := meetingTitle
          last_notified_at :=
            if decide ((e.skip_count + 1) % 5 = 0) ||
                decide (hoursSince now e.last_notified_at ≥ 24)
            then now else e.last_notified_at } :: post) := by
  intro pre
  induction pre with
  | nil =>
    intro e post _ he
    simp only [List.nil_append]
    unfold skipCheck
    rw [if_pos he]
  | cons x pre ih =>
    intro e post hpre he
    simp only [List.cons_append]
    unfold skipCheck
    rw [if_neg (hpre x (List.mem_cons_self x pre))]
    rw [ih e post (fun y hy => hpre y (List.mem_cons_of_mem x hy)) he]
    rfl

/-- Repeated checks of one id whose call times all lie in a window of
under 24 hours starting at or before the stored last-notified time:
starting from a single-entry ledger with count k, the n-th of the
remaining calls notifies exactly when k + n is divisible by 5. -/
theorem skipCalls_window (meetingId meetingTitle skipReason : String) (t0 : Int) :
    ∀ (ts : List Int) (k : Nat) (ttl rsn : String) (last : Int),
    t0 ≤ last → last < t0 + 86400000 →
    (∀ t ∈ ts, t0 ≤ t ∧ t < t0 + 86400000) →
    (skipCalls meetingId meetingTitle skipReason ts
      [{ id := meetingId, title := ttl, skipReason := rsn,
         last_notified_at := last, skip_count := k }]).1 =
      (List.range ts.length).map (fun i => decide ((k + i + 1) % 5 = 0)) := by
  intro ts
  induction ts with
  | nil => intro k ttl rsn last _ _ _; rfl
  | cons t rest ih =>
    intro k ttl rsn last hl1 hl2 hw
    have hwt := hw t (List.mem_cons_self t rest)
    have hne : ¬ hoursSince t last ≥ 24 := hoursSince_lt_24 t last (by omega)
    have hd : decide (hoursSince t last ≥ 24) = false := decide_eq_false hne
    have hstep : shouldNotifyForSkipped t meetingId meetingTitle skipReason
        [{ id := meetingId, title := ttl, skipReason := rsn,
           last_notified_at := last, skip_count := k }] =
        (decide ((k + 1) % 5 = 0),
         [{ id := meetingId, title := meetingTitle, skipReason := rsn,
            last_notified_at := if decide ((k + 1) % 5 = 0) then t else last,
            skip_count := k + 1 }]) := by
      unfold shouldNotifyForSkipped
      have hsc := skipCheck_found t meetingId meetingTitle []
        { id := meetingId, title := ttl, skipReason := rsn,
          last_notified_at := last, skip_count := k } [] (by simp) rfl
      simp only [List.nil_append] at hsc
      rw [hsc]
      simp only [hd, Bool.or_false]
    simp only [skipCalls]
    rw [hstep]
    simp only []
    rw [ih (k + 1) meetingTitle rsn (if decide ((k + 1) % 5 = 0) then t else last)
      (by split_ifs <;> omega) (by split_ifs <;> omega)
      (fun x hx => hw x (List.mem_cons_of_mem t hx))]
    simp only [List.length_cons]
    rw [List.range_succ_eq_map, List.map_cons, List.map_map]
    refine congrArg₂ List.cons ?_ ?_
    · norm_num
    · apply List.map_congr_left
      intro a _
      simp only [Function.comp_apply, Nat.succ_eq_add_one]
      rw [show k + 1 + a + 1 = k + (a + 1) + 1 from by omega]

/-- C6: the first check of a meeting id always notifies; a repeat
check notifies exactly when the updated skip count is divisible by 5
or at least 24 hours elapsed since the last notification; and over a
run of calls lying within a 24-hour window notification fires on
skip 1 and on every skip count divisible by 5, and on no other. -/
theorem shouldNotifyForSkipped_throttling :
    (∀ (now : Int) (meetingId meetingTitle skipReason : String)
      (st : List SkippedMeeting), (∀ e ∈ st, e.id ≠ meetingId) →
      (shouldNotifyForSkipped now meetingId meetingTitle skipReason st).1 = true) ∧
    (∀ (now : Int) (meetingId meetingTitle skipReason : String)
      (pre : List SkippedMeeting) (e : SkippedMeeting) (post : List SkippedMeeting),
      (∀ x ∈ pre, x.id ≠ meetingId) → e.id = meetingId →
      (shouldNotifyForSkipped now meetingId meetingTitle skipReason (pre ++ e :: post)).1 =
        (decide ((e.skip_count + 1) % 5 = 0) ||
         decide (hoursSince now e.last_notified_at ≥ 24))) ∧
    (∀ (meetingId meetingTitle skipReason : String) (t0 : Int) (ts : List Int),
      (∀ t ∈ ts, t0 ≤ t ∧ t < t0 + 86400000) →
      (skipCalls meetingId meetingTitle skipReason (t0 :: ts) []).1 =
        (List.range (ts.length + 1)).map (fun j =>
          decide (j + 1 = 1 ∨ (j + 1) % 5 = 0))) := by
  refine ⟨?_, ?_, ?_⟩
  · intro now meetingId meetingTitle skipReason st h
    unfold shouldNotifyForSkipped
    rw [skipCheck_none now meetingId meetingTitle st h]
  · intro now meetingId meetingTitle skipReason pre e post hpre he
    unfold shouldNotifyForSkipped
    rw [skipCheck_found now meetingId meetingTitle pre e post hpre he]
  · intro meetingId meetingTitle skipReason t0 ts hw
    have hfirst : shouldNotifyForSkipped t0 meetingId meetingTitle skipReason [] =
        (true, [{ id := meetingId, title := meetingTitle, skipReason := skipReason,
                  last_notified_at := t0, skip_count := 1 }]) := rfl
    simp only [skipCalls]
    rw [hfirst]
    simp only []
    rw [skipCalls_window meetingId meetingTitle skipReason t0 ts 1 meetingTitle
      skipReason t0 le_rfl (by omega) hw]
    rw [List.range_succ_eq_map, List.map_cons, List.map_map]
    refine congrArg₂ List.cons ?_ ?_
    · decide
    · apply List.map_congr_left
      intro a _
      simp only [Function.comp_apply, Nat.succ_eq_add_one]
      apply decide_eq_decide.mpr
      omega

/-- Closed instance of the skip throttling theorem: a fresh id
notifies; a second skip 1000 milliseconds later does not notify; and
five calls inside one second notify exactly on calls 1 and 5. -/
theorem shouldNotifyForSkipped_throttling_witness :
    (shouldNotifyForSkipped 0 "m" "t" "r" []).1 = true ∧
    (shouldNotifyForSkipped 1000 "m" "t2" "r"
      [{ id := "m", title := "t", skipReason := "r",
         last_notified_at := 0, skip_count := 1 }]).1 =
      (decide ((1 + 1) % 5 = 0) || decide (hoursSince 1000 0 ≥ 24)) ∧
    (skipCalls "m" "t" "r" [0, 1, 2, 3, 4] []).1 =
      (List.range 5).map (fun j => decide (j + 1 = 1 ∨ (j + 1) % 5 = 0)) := by
  obtain ⟨h1, h2, h3⟩ := shouldNotifyForSkipped_throttling
  refine ⟨h1 0 "m" "t" "r" [] (by simp), ?_, ?_⟩
  · have h := h2 1000 "m" "t2" "r" []
      { id := "m", title := "t", skipReason := "r",
        last_notified_at := 0, skip_count := 1 } [] (by simp) rfl
    simpa using h
  · have h := h3 "m" "t" "r" 0 [1, 2, 3, 4] (by decide)
    simpa using h

/-- C7 (amended): every repeat check increments the stored skip count
and refreshes the title as a side effect, moves the last-notified
timestamp to now exactly when the check decides to notify, and always
changes the stored state, so the check is not idempotent; the
timestamp alone is not updated on every call, which is the
counterexample to the claim as stated. -/
theorem shouldNotifyForSkipped_state_update (now : Int)
    (meetingId meetingTitle skipReason : String) (pre : List SkippedMeeting)
    (e : SkippedMeeting) (post : List SkippedMeeting)
    (hpre : ∀ x ∈ pre, x.id ≠ meetingId) (he : e.id = meetingId) :
    (shouldNotifyForSkipped now meetingId meetingTitle skipReason (pre ++ e :: post)).2 =
      pre ++ { e with
        skip_count := e.skip_count + 1
        title := meetingTitle
        last_notified_at :=
          if (shouldNotifyForSkipped now meetingId meetingTitle skipReason
                (pre ++ e :: post)).1
          then now else e.last_notified_at } :: post ∧
    (shouldNotifyForSkipped now meetingId meetingTitle skipReason (pre ++ e :: post)).2 ≠
      pre ++ e :: post := by
  have hmain : shouldNotifyForSkipped now meetingId meetingTitle skipReason
      (pre ++ e :: post) =
      (decide ((e.skip_count + 1) % 5 = 0) ||
         decide (hoursSince now e.last_notified_at ≥ 24),
       pre ++ { e with
         skip_count := e.skip_count + 1
         title := meetingTitle
         last_notified_at :=
           if decide ((e.skip_count + 1) % 5 = 0) ||
               decide (hoursSince now e.last_notified_at ≥ 24)
           then now else e.last_notified_at } :: post) := by
    unfold shouldNotifyForSkipped
    rw [skipCheck_found now meetingId meetingTitle pre e post hpre he]
  constructor
  · rw [hmain]
  · rw [hmain]
    intro hcontra
    have h2 := List.append_cancel_left hcontra
    have h3 := (List.cons_eq_cons.mp h2).1
    have h4 := congrArg SkippedMeeting.skip_count h3
    simp at h4

/-- Closed instance of the state update theorem: a repeat check one
second after the stored notification changes the stored entry. -/
theorem shouldNotifyForSkipped_state_update_witness :
    (shouldNotifyForSkipped 1000 "m" "t2" "r"
      [{ id := "m", title := "t", skipReason := "r",
         last_notified_at := 0, skip_count := 1 }]).2 ≠
      [{ id := "m", title := "t", skipReason := "r",
         last_notified_at := 0, skip_count := 1 }] := by
  have h := shouldNotifyForSkipped_state_update 1000 "m" "t2" "r" []
    { id := "m", title := "t", skipReason := "r",
      last_notified_at := 0, skip_count := 1 } [] (by simp) rfl
  simpa using h.2

/-- Counterexample to C7 as stated: on the second skip of an id less
than 24 hours after the first, the stored skip count advances from 1
to 2 and the title is refreshed, but the last-notified timestamp
stays at its old value 0 instead of being updated to 1000, because
the check did not notify. -/
theorem shouldNotifyForSkipped_timestamp_counterexample :
    shouldNotifyForSkipped 1000 "m1" "t2" "r"
      [{ id := "m1", title := "t1", skipReason := "r",
         last_notified_at := 0, skip_count := 1 }] =
      (false,
       [{ id := "m1", title := "t2", skipReason := "r",
          last_notified_at := 0, skip_count := 2 }]) := by
  have hd : decide (hoursSince 1000 0 ≥ 24) = false := by
    apply decide_eq_false
    norm_num [hoursSince]
  unfold shouldNotifyForSkipped
  have hsc := skipCheck_found 1000 "m1" "t2" []
    { id := "m1", title := "t1", skipReason := "r",
      last_notified_at := 0, skip_count := 1 } [] (by simp) rfl
  simp only [List.nil_append] at hsc
  rw [hsc]
  simp [hd]
